import Mathlib

/-
Verification of the market-data engine of kite-go-library against its
natural-language specification.

The definitions below are a shallow embedding of the Go source:
  - engine/engine.go : storage frame writer (appendToFile), frame-reader
    loop (readMap / Read), the binary-data handler of Serve (header field
    assignment, depth split, lot-size enrichment), the subscription
    rotation loop of Serve, and the configuration parsing at engine start.
  - kite/kite_history.go : the polling wait loop of addToBatchAndWait.
Bytes are modelled as Nat, machine integers as Nat/Int with explicit
wrap-around where the Go code can overflow, and Go runtime panics
(nil-pointer dereference, slice bounds out of range) as Option.none or an
explicit error constructor.
-/

/-- Big-endian 8-byte encoding of a natural number, as written by
binary.BigEndian.PutUint64 in appendToFile (engine.go). The value is
taken modulo 2 ^ 64 byte by byte, matching the uint64 conversion. -/
def toBE8 (n : Nat) : List Nat :=
  [n / 2 ^ 56 % 256, n / 2 ^ 48 % 256, n / 2 ^ 40 % 256, n / 2 ^ 32 % 256,
   n / 2 ^ 24 % 256, n / 2 ^ 16 % 256, n / 2 ^ 8 % 256, n % 256]

/-- Big-endian read of a byte list, as done by binary.BigEndian.Uint64 on
an 8-byte slice (engine.go readMap and Read). -/
def fromBE8 (bs : List Nat) : Nat :=
  bs.foldl (fun acc b => acc * 256 + b) 0

/-- Failure modes of the frame-reader loop in engine.go readMap:
frameOverrun models the Go runtime panic raised by the slice expression
b[8 : sizeOfPacket+8] when the declared length exceeds the remaining
bytes (or the uint64 addition sizeOfPacket+8 wraps); decompressFailed
models the error return when decompress fails. -/
inductive ReadErr where
  | frameOverrun
  | decompressFailed
deriving DecidableEq, Repr

/-- Result of the frame-reader loop: ok with the ordered list of
decompressed frame payloads, or an error/panic. -/
inductive ReadResult where
  | ok (frames : List (List Nat))
  | error (e : ReadErr)
deriving DecidableEq, Repr

/-- One-step-per-frame recursion of the loop
`for len(b) > 8 { size := BigEndian.Uint64(b[0:8]); packet := decompress(b[8:size+8]); b = b[size+8:] }`
in engine.go readMap (the loop in Read has the same frame structure).
The fuel argument is only an upper bound on the number of iterations
(each iteration consumes at least 8 bytes, so an initial fuel of
b.length is always enough); the loop itself exits when at most 8 bytes
remain, exactly as the Go condition `len(b) > 8` does. -/
def readFramesGo (dec : List Nat → Option (List Nat)) : Nat → List Nat → ReadResult
  | 0, _ => ReadResult.ok []
  | fuel + 1, b =>
    if 8 < b.length then
      let size := fromBE8 (b.take 8)
      if 2 ^ 64 ≤ size + 8 ∨ b.length < size + 8 then ReadResult.error ReadErr.frameOverrun
      else
        match dec ((b.drop 8).take size) with
        | none => ReadResult.error ReadErr.decompressFailed
        | some payload =>
          match readFramesGo dec fuel (b.drop (size + 8)) with
          | ReadResult.error e => ReadResult.error e
          | ReadResult.ok rest => ReadResult.ok (payload :: rest)
    else ReadResult.ok []

/-- Frame-reader loop of engine.go readMap / Read on a whole file,
parameterised by the decompression function. -/
def readFrames (dec : List Nat → Option (List Nat)) (b : List Nat) : ReadResult :=
  readFramesGo dec b.length b

/-- One storage frame as built by appendToFile in engine.go: the 8-byte
big-endian length of the compressed payload, then the compressed
payload. -/
def frameOf (compress : List Nat → List Nat) (data : List Nat) : List Nat :=
  toBE8 (compress data).length ++ compress data

/-- appendToFile of engine.go: compress the record, prefix the 8-byte
big-endian compressed length, append to the file. -/
def appendToFile (compress : List Nat → List Nat) (file data : List Nat) : List Nat :=
  file ++ frameOf compress data

/-- File contents after appending every record of the sequence in order
via appendToFile, starting from an empty file. -/
def writeAll (compress : List Nat → List Nat) (records : List (List Nat)) : List Nat :=
  records.foldl (appendToFile compress) []

/-- Identity decompressor, used to evaluate the frame reader on concrete
files. -/
def decId : List Nat → Option (List Nat) := fun l => some l

/-- Concrete compressor for witnesses: prepends one byte. -/
def consZeroByte : List Nat → List Nat := fun l => 0 :: l

/-- Concrete decompressor for witnesses: drops the first byte. -/
def unconsByte : List Nat → Option (List Nat)
  | [] => none
  | _ :: t => some t

/-- One depth level as built in engine.go:
storage.Order{Price: price, Quantity: qty, Orders: orders}. -/
structure Order where
  Price : Nat
  Quantity : Nat
  Orders : Nat
deriving DecidableEq, Repr

/-- storage.Depth: the buy and sell sides of the market-depth ladder. -/
structure Depth where
  Buy : List Order
  Sell : List Order
deriving DecidableEq, Repr

/-- storage.Ticker as populated by the binary-data handler in engine.go
Serve. Numeric wire fields are modelled as Nat. -/
structure Ticker where
  Token : Nat
  LastPrice : Nat
  LastTradedQuantity : Nat
  AverageTradedPrice : Nat
  VolumeTraded : Nat
  TotalBuy : Nat
  TotalSell : Nat
  High : Nat
  Low : Nat
  Open : Nat
  Close : Nat
  PriceChange : Nat
  LastTradedTimestamp : Nat
  OI : Nat
  OIHigh : Nat
  OILow : Nat
  ExchangeTimestamp : Nat
  LotSize : Nat
  Depth : Depth
deriving DecidableEq, Repr

/-- Zero-valued ticker with empty depth, as allocated at the top of the
packet loop in engine.go Serve
(storage.Ticker{Depth: storage.Depth{Buy: [], Sell: []}}). -/
def emptyTicker : Ticker :=
  { Token := 0, LastPrice := 0, LastTradedQuantity := 0, AverageTradedPrice := 0,
    VolumeTraded := 0, TotalBuy := 0, TotalSell := 0, High := 0, Low := 0,
    Open := 0, Close := 0, PriceChange := 0, LastTradedTimestamp := 0,
    OI := 0, OIHigh := 0, OILow := 0, ExchangeTimestamp := 0, LotSize := 0,
    Depth := Depth.mk [] [] }

/-- Header-field assignment of engine.go Serve (lines 431 to 477): if at
least two fields decoded, Token and LastPrice are set; the switch on the
decoded field count then assigns the variant fields; any other count
falls to the default branch, which only logs (the returned Bool is true
exactly when the unrecognized-length log line fires). -/
def assignHeader (values : List Nat) : Ticker × Bool :=
  let n := values.length
  let base :=
    if 2 ≤ n then
      { emptyTicker with Token := values.getD 0 0, LastPrice := values.getD 1 0 }
    else emptyTicker
  if n = 2 then (base, false)
  else if n = 7 then
    ({ base with High := values.getD 2 0, Low := values.getD 3 0, Open := values.getD 4 0,
                 Close := values.getD 5 0, ExchangeTimestamp := values.getD 6 0 }, false)
  else if n = 8 then
    ({ base with High := values.getD 2 0, Low := values.getD 3 0, Open := values.getD 4 0,
                 Close := values.getD 5 0, PriceChange := values.getD 6 0,
                 ExchangeTimestamp := values.getD 7 0 }, false)
  else if n = 11 then
    ({ base with LastTradedQuantity := values.getD 2 0, AverageTradedPrice := values.getD 3 0,
                 VolumeTraded := values.getD 4 0, TotalBuy := values.getD 5 0,
                 TotalSell := values.getD 6 0, High := values.getD 7 0, Low := values.getD 8 0,
                 Open := values.getD 9 0, Close := values.getD 10 0 }, false)
  else if n = 16 then
    ({ base with LastTradedQuantity := values.getD 2 0, AverageTradedPrice := values.getD 3 0,
                 VolumeTraded := values.getD 4 0, TotalBuy := values.getD 5 0,
                 TotalSell := values.getD 6 0, High := values.getD 7 0, Low := values.getD 8 0,
                 Open := values.getD 9 0, Close := values.getD 10 0,
                 LastTradedTimestamp := values.getD 11 0, OI := values.getD 12 0,
                 OIHigh := values.getD 13 0, OILow := values.getD 14 0,
                 ExchangeTimestamp := values.getD 15 0 }, false)
  else (base, true)

/-- Depth-assignment loop of engine.go Serve (lines 486 to 502): consume
the flat field list three at a time as (qty, price, orders); append to
the buy side while it has fewer than lobDepth entries, otherwise to the
sell side. A leftover of one or two fields makes the Go indexing
values[1] or values[2] panic, modelled as none. -/
def splitDepthLoop (lobDepth : Nat) (buy sell : List Order) : List Nat → Option (List Order × List Order)
  | [] => some (buy, sell)
  | q :: p :: o :: rest =>
    if buy.length < lobDepth then
      splitDepthLoop lobDepth (buy ++ [Order.mk p q o]) sell rest
    else
      splitDepthLoop lobDepth buy (sell ++ [Order.mk p q o]) rest
  | _ => none

/-- Depth split of engine.go Serve: lobDepth := len(values) / 6, then the
assignment loop. The flat field list is the output of
kite.Packet.ParseMarketDepth on the payload past byte 64 (ParseMarketDepth
itself is outside the embedded engine code and is abstracted as this
list). -/
def splitDepth (values : List Nat) : Option (List Order × List Order) :=
  splitDepthLoop (values.length / 6) [] [] values

/-- Specification-side view of the depth ladder, following the words of
the spec: the flat field list is read as repeating groups of 3 fields in
the order (quantity, price, orderCount). -/
def specDepthGroups : List Nat → List Order
  | q :: p :: o :: rest => Order.mk p q o :: specDepthGroups rest
  | _ => []

/-- Per-packet body of the binary-data handler in engine.go Serve:
header assignment from the decoded field list, depth split when the
payload exceeds 64 bytes, then lot-size enrichment through
tokenTradingsymbolMap. lotOf t = none models a token absent from the
map: the Go code then reads LotSize from a nil pointer and panics,
modelled as none. The Bool records whether the unrecognized-length log
fired. -/
def processPacket (lotOf : Nat → Option Nat) (values : List Nat) (packetLen : Nat)
    (depthValues : List Nat) : Option (Ticker × Bool) :=
  let hdr := assignHeader values
  let withDepth : Option Ticker :=
    if 64 < packetLen then
      match splitDepth depthValues with
      | none => none
      | some bs => some { hdr.1 with Depth := Depth.mk bs.1 bs.2 }
    else some hdr.1
  match withDepth with
  | none => none
  | some t =>
    match lotOf t.Token with
    | none => none
    | some ls => some ({ t with LotSize := ls }, hdr.2)

/-- Control messages the rotation loop of engine.go Serve sends to the
transport: Unsubscribe and SubscribeFull, each with a token list. -/
inductive Ev where
  | unsub (tokens : List Nat)
  | sub (tokens : List Nat)
deriving DecidableEq, Repr

/-- Per-iteration state of the rotation loop in engine.go Serve: the
batch index (start = pos * chunk) and the isSubscribed flag. -/
structure RotState where
  pos : Nat
  isSubscribed : Bool
deriving DecidableEq, Repr

/-- Token slice allTokens[start : min (start+chunk) len] used by the
rotation loop for both unsubscribe and subscribe. -/
def batchSlice (tokens : List Nat) (chunk start : Nat) : List Nat :=
  (tokens.drop start).take chunk

/-- One iteration of the rotation loop of engine.go Serve (lines 294 to
351): if prevStart = start - chunk is nonnegative, unsubscribe the
previous raw batch when isSubscribed, and clear isSubscribed; filter the
current batch by trading hours; subscribe it when nonempty, setting
isSubscribed accordingly; advance start by chunk, wrapping to 0 when the
token list is exhausted (the outer for loop restarting the inner one). -/
def rotStep (tokens : List Nat) (chunk : Nat) (active : Nat → Bool) (s : RotState) :
    List Ev × RotState :=
  let start := s.pos * chunk
  let unsubEvs :=
    if 1 ≤ s.pos then
      (if s.isSubscribed then [Ev.unsub (batchSlice tokens chunk ((s.pos - 1) * chunk))] else [])
    else []
  let activeBatch := (batchSlice tokens chunk start).filter active
  let subEvs := if activeBatch.isEmpty then [] else [Ev.sub activeBatch]
  let nextPos := if (s.pos + 1) * chunk < tokens.length then s.pos + 1 else 0
  (unsubEvs ++ subEvs, RotState.mk nextPos (!activeBatch.isEmpty))

/-- Event trace of the first k iterations of the rotation loop, started
from a given state; the initial state of Serve is pos 0 with
isSubscribed true. -/
def rotTrace (tokens : List Nat) (chunk : Nat) (active : Nat → Bool) : Nat → RotState → List Ev
  | 0, _ => []
  | k + 1, s =>
    (rotStep tokens chunk active s).1 ++
      rotTrace tokens chunk active k (rotStep tokens chunk active s).2

/-- Trading-hours predicate with every token inside its session window. -/
def activeAll : Nat → Bool := fun _ => true

/-- Effect of one control message on the set (as a list) of currently
subscribed tokens. -/
def applyEv (cur : List Nat) : Ev → List Nat
  | Ev.sub ts => cur ++ ts
  | Ev.unsub ts => cur.filter (fun t => !(ts.contains t))

/-- Tokens subscribed after a trace of control messages. -/
def subscribedSet (evs : List Ev) : List Nat :=
  evs.foldl applyEv []

/-- The batches of the token universe in rotation order. -/
def batches (tokens : List Nat) (chunk : Nat) : List (List Nat) :=
  (List.range ((tokens.length + chunk - 1) / chunk)).map
    (fun i => batchSlice tokens chunk (i * chunk))

/-- Outcome of the configuration step at the start of engine.go Serve. -/
inductive ConfigOutcome where
  | fatalError
  | started (rotationInterval instrumentsPerRequest : Int)
deriving DecidableEq, Repr

/-- Configuration handling of engine.go Serve (lines 267 to 274): the
two environment values TA_FEED_TIMEOUT and TA_FEED_INSTRUMENT_COUNT are
parsed (a parse outcome is some v, a parse failure none); a failure is
only logged, strconv.ParseFloat returns 0 on error, and Serve proceeds
to start the websocket handlers unconditionally — there is no
positivity check and no fatal path. -/
def serveStartup (pRot pInst : Option Int) : ConfigOutcome :=
  ConfigOutcome.started (pRot.getD 0) (pInst.getD 0)

/-- Association-list lookup modelling the TickSymbolMap read
kite.TickSymbolMap[key] in kite_history.go; the stored value is reduced
to the LastPrice field the wait loop inspects. -/
def lookupTick (m : List (String × Int)) (key : String) : Option Int :=
  (m.find? (fun kv => kv.1 = key)).map (fun kv => kv.2)

/-- One membership-and-price check of the wait loop in
addToBatchAndWait (kite_history.go lines 459 to 470): success requires
the key to be present AND its LastPrice to be strictly positive. -/
def tickCheck (m : List (String × Int)) (key : String) : Bool :=
  match lookupTick m key with
  | some p => decide (0 < p)
  | none => false

/-- Result of the wait loop of addToBatchAndWait: nil return on data, or
the timeout error after maxWaitTime elapses. -/
inductive WaitResult where
  | succeeded
  | timedOut
deriving DecidableEq, Repr

/-- Polling wait loop of addToBatchAndWait (kite_history.go lines 453 to
477) against a fixed cache state: each iteration checks the
"exchange:symbol" key and then the bare trading symbol, succeeding only
when one of them holds a tick with LastPrice > 0; otherwise it sleeps
and retries until the iteration budget (maxWaitTime / checkInterval,
i.e. 50) is exhausted and the timeout error is returned. -/
def addToBatchAndWait (m : List (String × Int)) (symbolKey tradingSymbol : String) :
    Nat → WaitResult
  | 0 => WaitResult.timedOut
  | n + 1 =>
    if tickCheck m symbolKey || tickCheck m tradingSymbol then WaitResult.succeeded
    else addToBatchAndWait m symbolKey tradingSymbol n

theorem readFramesGo_succ (dec : List Nat → Option (List Nat)) (fuel : Nat) (b : List Nat) :
    readFramesGo dec (fuel + 1) b =
      if 8 < b.length then
        let size := fromBE8 (b.take 8)
        if 2 ^ 64 ≤ size + 8 ∨ b.length < size + 8 then ReadResult.error ReadErr.frameOverrun
        else
          match dec ((b.drop 8).take size) with
          | none => ReadResult.error ReadErr.decompressFailed
          | some payload =>
            match readFramesGo dec fuel (b.drop (size + 8)) with
            | ReadResult.error e => ReadResult.error e
            | ReadResult.ok rest => ReadResult.ok (payload :: rest)
      else ReadResult.ok [] := rfl

theorem fromBE8_toBE8 (n : Nat) (h : n < 2 ^ 64) : fromBE8 (toBE8 n) = n := by
  simp only [toBE8, fromBE8, List.foldl]
  omega

theorem toBE8_length (n : Nat) : (toBE8 n).length = 8 := rfl

theorem writeAll_foldl (compress : List Nat → List Nat) :
    ∀ (records : List (List Nat)) (acc : List Nat),
      records.foldl (appendToFile compress) acc =
        acc ++ ((records.map (frameOf compress)).flatten) := by
  intro records
  induction records with
  | nil => intro acc; simp
  | cons r rs ih =>
    intro acc
    simp only [List.foldl_cons, List.map_cons, List.flatten, ih, appendToFile]
    simp [List.append_assoc]

theorem writeAll_eq_join (compress : List Nat → List Nat) (records : List (List Nat)) :
    writeAll compress records = (records.map (frameOf compress)).flatten := by
  simpa using writeAll_foldl compress records []

theorem readFramesGo_roundtrip (dec : List Nat → Option (List Nat))
    (compress : List Nat → List Nat) :
    ∀ (records : List (List Nat)) (fuel : Nat),
      (∀ r ∈ records, dec (compress r) = some r) →
      (∀ r ∈ records, 1 ≤ (compress r).length) →
      (∀ r ∈ records, (compress r).length + 8 < 2 ^ 64) →
      ((records.map (frameOf compress)).flatten).length ≤ fuel →
      readFramesGo dec fuel ((records.map (frameOf compress)).flatten) = ReadResult.ok records := by
  intro records
  induction records with
  | nil =>
    intro fuel _ _ _ _
    cases fuel with
    | zero => rfl
    | succ f => simp [readFramesGo_succ]
  | cons r rs ih =>
    intro fuel hinv hne hfit hfuel
    have hinvr : dec (compress r) = some r := hinv r (List.mem_cons_self r rs)
    have hner : 1 ≤ (compress r).length := hne r (List.mem_cons_self r rs)
    have hfitr : (compress r).length + 8 < 2 ^ 64 := hfit r (List.mem_cons_self r rs)
    set c := compress r with hc
    set J := ((rs.map (frameOf compress)).flatten) with hJ
    have hb : ((r :: rs).map (frameOf compress)).flatten = toBE8 c.length ++ (c ++ J) := by
      simp [frameOf, List.flatten, List.append_assoc, hc, hJ]
    rw [hb] at hfuel ⊢
    have hlen : (toBE8 c.length ++ (c ++ J)).length = 8 + (c.length + J.length) := by
      simp [toBE8_length]
    cases fuel with
    | zero =>
      rw [hlen] at hfuel
      omega
    | succ f =>
      rw [readFramesGo_succ]
      have h8 : 8 < (toBE8 c.length ++ (c ++ J)).length := by
        rw [hlen]; omega
      rw [if_pos h8]
      have htake : (toBE8 c.length ++ (c ++ J)).take 8 = toBE8 c.length :=
        List.take_left' (toBE8_length c.length)
      have hdrop : (toBE8 c.length ++ (c ++ J)).drop 8 = c ++ J :=
        List.drop_left' (toBE8_length c.length)
      simp only [htake, hdrop]
      rw [fromBE8_toBE8 c.length (by omega)]
      have hguard : ¬ (2 ^ 64 ≤ c.length + 8 ∨ (toBE8 c.length ++ (c ++ J)).length < c.length + 8) := by
        rw [hlen]; omega
      rw [if_neg hguard]
      have htakec : (c ++ J).take c.length = c := List.take_left' rfl
      rw [htakec, hinvr]
      have hdropc : (toBE8 c.length ++ (c ++ J)).drop (c.length + 8) = J := by
        have : toBE8 c.length ++ (c ++ J) = (toBE8 c.length ++ c) ++ J := by
          simp [List.append_assoc]
        rw [this]
        apply List.drop_left'
        simp [toBE8_length]
        omega
      rw [hdropc]
      have hrest : readFramesGo dec f J = ReadResult.ok rs := by
        apply ih f
        · intro x hx; exact hinv x (List.mem_cons_of_mem r hx)
        · intro x hx; exact hne x (List.mem_cons_of_mem r hx)
        · intro x hx; exact hfit x (List.mem_cons_of_mem r hx)
        · rw [hlen] at hfuel; omega
      rw [hrest]

/-- Claim C5: appending every record of a finite sequence as a frame via
appendToFile (compress, 8-byte big-endian compressed-length prefix,
append) and reading the file back with the frame-reader loop yields the
same ordered sequence of records, for any compression scheme that
round-trips, never emits an empty compressed payload, and whose outputs
fit in a uint64 length field. -/
theorem storage_roundtrip (compress : List Nat → List Nat)
    (dec : List Nat → Option (List Nat)) (records : List (List Nat))
    (hinv : ∀ r ∈ records, dec (compress r) = some r)
    (hne : ∀ r ∈ records, 1 ≤ (compress r).length)
    (hfit : ∀ r ∈ records, (compress r).length + 8 < 2 ^ 64) :
    readFrames dec (writeAll compress records) = ReadResult.ok records := by
  rw [readFrames, writeAll_eq_join]
  exact readFramesGo_roundtrip dec compress records _ hinv hne hfit (le_refl _)

/-- Witness for storage_roundtrip at a concrete two-record sequence. -/
theorem storage_roundtrip_witness :
    (∀ r ∈ ([[1, 2], [3]] : List (List Nat)), unconsByte (consZeroByte r) = some r) ∧
    (∀ r ∈ ([[1, 2], [3]] : List (List Nat)), 1 ≤ (consZeroByte r).length) ∧
    (∀ r ∈ ([[1, 2], [3]] : List (List Nat)), (consZeroByte r).length + 8 < 2 ^ 64) ∧
    readFrames unconsByte (writeAll consZeroByte [[1, 2], [3]]) = ReadResult.ok [[1, 2], [3]] :=
  ⟨by decide, by decide, by decide,
    storage_roundtrip consZeroByte unconsByte [[1, 2], [3]] (by decide) (by decide) (by decide)⟩

/-- Claim C2: with a file made of one complete frame followed by a
truncated frame whose declared 8-byte length (100) exceeds the 3 bytes
remaining, the frame-reader loop of readMap aborts with the slice-bounds
panic instead of returning the complete frame; a trailing fragment of at
most 8 bytes, by contrast, is treated as benign end-of-stream. -/
theorem truncated_trailing_frame_panics :
    readFrames decId (toBE8 1 ++ [7] ++ toBE8 100 ++ [1, 2, 3]) =
      ReadResult.error ReadErr.frameOverrun ∧
    readFrames decId (toBE8 1 ++ [7] ++ [9, 9, 9]) = ReadResult.ok [[7]] := by
  decide

/-- Claim C1: a decoded packet whose token (5) is not a key of
tokenTradingsymbolMap does not complete: the handler hits the
nil-pointer dereference in the lot-size enrichment and panics (none),
while the same packet with the token present produces the enriched base
tick. -/
theorem unknown_token_panics :
    processPacket (fun _ => none) [5, 100] 64 [] = none ∧
    processPacket (fun _ => some 40) [5, 100] 64 [] =
      some ({ emptyTicker with Token := 5, LastPrice := 100, LotSize := 40 }, false) := by
  decide

/-- Claim C7: a payload decoding to exactly 16 header fields assigns
Token, LastPrice, LastTradedQuantity, AverageTradedPrice, VolumeTraded,
TotalBuy, TotalSell, High, Low, Open, Close, LastTradedTimestamp, OI,
OIHigh, OILow, ExchangeTimestamp positionally from the 16 decoded
values, in that exact order, and is not logged as unrecognized. -/
theorem sixteen_field_assignment
    (v0 v1 v2 v3 v4 v5 v6 v7 v8 v9 v10 v11 v12 v13 v14 v15 : Nat) :
    assignHeader [v0, v1, v2, v3, v4, v5, v6, v7, v8, v9, v10, v11, v12, v13, v14, v15] =
      ({ emptyTicker with
          Token := v0, LastPrice := v1, LastTradedQuantity := v2,
          AverageTradedPrice := v3, VolumeTraded := v4, TotalBuy := v5, TotalSell := v6,
          High := v7, Low := v8, Open := v9, Close := v10, LastTradedTimestamp := v11,
          OI := v12, OIHigh := v13, OILow := v14, ExchangeTimestamp := v15 }, false) := by
  rfl

theorem assignHeader_depth (values : List Nat) :
    (assignHeader values).1.Depth = Depth.mk [] [] := by
  unfold assignHeader
  dsimp only
  repeat' split
  all_goals rfl

/-- Claim C9: whenever a packet whose payload is exactly 64 bytes long
decodes to a tick, that tick has empty Depth.Buy and Depth.Sell: the
depth branch requires the payload to exceed 64 bytes, so the depth
initialised empty is kept. -/
theorem payload64_empty_depth (lotOf : Nat → Option Nat) (values depthValues : List Nat)
    (r : Ticker × Bool) (h : processPacket lotOf values 64 depthValues = some r) :
    r.1.Depth.Buy = [] ∧ r.1.Depth.Sell = [] := by
  unfold processPacket at h
  simp only [show ¬ (64 < 64) by omega, if_false] at h
  rcases hl : lotOf (assignHeader values).1.Token with _ | ls
  · rw [hl] at h; cases h
  · rw [hl] at h
    cases h
    simp [assignHeader_depth values]

/-- Witness for payload64_empty_depth at a concrete packet. -/
theorem payload64_empty_depth_witness :
    processPacket (fun _ => some 3) [1, 2] 64 [] =
      some ({ emptyTicker with Token := 1, LastPrice := 2, LotSize := 3 }, false) ∧
    ({ emptyTicker with Token := 1, LastPrice := 2, LotSize := 3 }, false).1.Depth.Buy = ([] : List Order) ∧
    ({ emptyTicker with Token := 1, LastPrice := 2, LotSize := 3 }, false).1.Depth.Sell = ([] : List Order) :=
  ⟨by decide,
    (payload64_empty_depth (fun _ => some 3) [1, 2] []
      ({ emptyTicker with Token := 1, LastPrice := 2, LotSize := 3 }, false) (by decide)).1,
    (payload64_empty_depth (fun _ => some 3) [1, 2] []
      ({ emptyTicker with Token := 1, LastPrice := 2, LotSize := 3 }, false) (by decide)).2⟩

/-- Claim C6 counterexample: a payload decoding to 5 fields (not one of
2, 7, 8, 11, 16) is logged as unrecognized (flag true) but is NOT
skipped: the handler still produces a record, with Token and LastPrice
taken from the first two fields and lot-size enrichment applied. -/
theorem unrecognized_count_counterexample :
    processPacket (fun _ => some 25) [1, 2, 3, 4, 5] 64 [] =
      some ({ emptyTicker with Token := 1, LastPrice := 2, LotSize := 25 }, true) := by
  decide

/-- Claim C6 (amended): a payload whose decoded field count is not one
of 2, 7, 8, 11, 16 (and is at least 2) is logged as unrecognized, yet
the handler still builds a record carrying Token and LastPrice from the
first two decoded values (all other header fields zero), runs lot-size
enrichment on it, and continues. -/
theorem unrecognized_count_amended (lotOf : Nat → Option Nat) (values : List Nat) (ls : Nat)
    (h2 : 2 ≤ values.length)
    (hn : values.length ∉ ([2, 7, 8, 11, 16] : List Nat))
    (hl : lotOf (values.getD 0 0) = some ls) :
    processPacket lotOf values 64 [] =
      some ({ emptyTicker with
              Token := values.getD 0 0, LastPrice := values.getD 1 0,
              LotSize := ls }, true) := by
  simp only [List.mem_cons, List.not_mem_nil, or_false, not_or] at hn
  obtain ⟨h2', h7, h8, h11, h16⟩ := hn
  have hhdr : assignHeader values =
      ({ emptyTicker with Token := values.getD 0 0, LastPrice := values.getD 1 0 }, true) := by
    unfold assignHeader
    simp only [if_pos h2, if_neg h2', if_neg h7, if_neg h8, if_neg h11, if_neg h16]
  unfold processPacket
  rw [hhdr]
  simp only [show ¬ (64 < 64) by omega, if_false]
  simp only [List.getD] at hl ⊢
  rw [hl]

/-- Witness for unrecognized_count_amended at a concrete 5-field
payload. -/
theorem unrecognized_count_amended_witness :
    2 ≤ ([9, 8, 7, 6, 5] : List Nat).length ∧
    ([9, 8, 7, 6, 5] : List Nat).length ∉ ([2, 7, 8, 11, 16] : List Nat) ∧
    processPacket (fun _ => some 11) [9, 8, 7, 6, 5] 64 [] =
      some ({ emptyTicker with
              Token := ([9, 8, 7, 6, 5] : List Nat).getD 0 0,
              LastPrice := ([9, 8, 7, 6, 5] : List Nat).getD 1 0, LotSize := 11 }, true) :=
  ⟨by decide, by decide,
    unrecognized_count_amended (fun _ => some 11) [9, 8, 7, 6, 5] 11
      (by decide) (by decide) (by decide)⟩

theorem splitDepthLoop_eq (lob : Nat) :
    ∀ (k : Nat) (vs : List Nat), vs.length = 3 * k → ∀ (buy sell : List Order),
      splitDepthLoop lob buy sell vs =
        some (buy ++ (specDepthGroups vs).take (lob - buy.length),
              sell ++ (specDepthGroups vs).drop (lob - buy.length)) := by
  intro k
  induction k with
  | zero =>
    intro vs hlen buy sell
    have hnil : vs = [] := List.eq_nil_of_length_eq_zero (by omega)
    subst hnil
    simp [splitDepthLoop, specDepthGroups]
  | succ k ih =>
    intro vs hlen buy sell
    match vs, hlen with
    | q :: p :: o :: rest, hlen =>
      have hrest : rest.length = 3 * k := by
        simp only [List.length_cons] at hlen
        omega
      simp only [splitDepthLoop, specDepthGroups]
      by_cases hb : buy.length < lob
      · rw [if_pos hb]
        rw [ih rest hrest (buy ++ [Order.mk p q o]) sell]
        obtain ⟨m, hm⟩ : ∃ m, lob - buy.length = m + 1 := ⟨lob - buy.length - 1, by omega⟩
        have hm' : lob - (buy ++ [Order.mk p q o]).length = m := by
          simp only [List.length_append, List.length_cons, List.length_nil]
          omega
        rw [hm, hm', List.take_succ_cons, List.drop_succ_cons]
        simp
      · rw [if_neg hb]
        rw [ih rest hrest buy (sell ++ [Order.mk p q o])]
        have h0 : lob - buy.length = 0 := by omega
        rw [h0, List.take_zero, List.drop_zero]
        simp

theorem specDepthGroups_length :
    ∀ (k : Nat) (vs : List Nat), vs.length = 3 * k → (specDepthGroups vs).length = k := by
  intro k
  induction k with
  | zero =>
    intro vs hlen
    have hnil : vs = [] := List.eq_nil_of_length_eq_zero (by omega)
    subst hnil
    rfl
  | succ k ih =>
    intro vs hlen
    match vs, hlen with
    | q :: p :: o :: rest, hlen =>
      have hrest : rest.length = 3 * k := by
        simp only [List.length_cons] at hlen
        omega
      simp only [specDepthGroups, List.length_cons, ih rest hrest]

/-- Claim C8: for a well-formed depth field list (a whole number of
3-field groups), the depth loop reads the groups in the order
(quantity, price, orderCount) and assigns the first totalGroups / 2
groups to the buy side and all remaining groups to the sell side,
preserving payload order within each side. -/
theorem depth_split_groups (values : List Nat) (h : 3 ∣ values.length) :
    splitDepth values =
      some ((specDepthGroups values).take ((specDepthGroups values).length / 2),
            (specDepthGroups values).drop ((specDepthGroups values).length / 2)) := by
  obtain ⟨k, hk⟩ := h
  have hloop := splitDepthLoop_eq (values.length / 6) k values hk [] []
  simp only [List.length_nil, Nat.sub_zero, List.nil_append] at hloop
  have hglen : (specDepthGroups values).length = k := specDepthGroups_length k values hk
  have h6 : values.length / 6 = k / 2 := by
    rw [hk]
    omega
  rw [splitDepth, hloop, hglen, h6]

/-- Witness for depth_split_groups at a concrete two-group ladder. -/
theorem depth_split_groups_witness :
    (3 ∣ ([10, 100, 1, 20, 200, 2] : List Nat).length) ∧
    splitDepth [10, 100, 1, 20, 200, 2] =
      some ((specDepthGroups [10, 100, 1, 20, 200, 2]).take
              ((specDepthGroups [10, 100, 1, 20, 200, 2]).length / 2),
            (specDepthGroups [10, 100, 1, 20, 200, 2]).drop
              ((specDepthGroups [10, 100, 1, 20, 200, 2]).length / 2)) :=
  ⟨by decide, depth_split_groups [10, 100, 1, 20, 200, 2] (by decide)⟩

/-- Claim C3 counterexample: with universe [1,2,3,4,5], batch size 2 and
every token active, after four iterations (one full cycle plus the
wrap-around) the subscribed tokens are not contained in any single
batch: the wrap-around subscribed batch [1,2] while batch [5] was never
unsubscribed, so two batches of subscriptions are in flight. -/
theorem rotation_wraparound_counterexample :
    ¬ ∃ b ∈ batches [1, 2, 3, 4, 5] 2,
        ∀ t ∈ subscribedSet (rotTrace [1, 2, 3, 4, 5] 2 activeAll 4 (RotState.mk 0 true)),
          t ∈ b := by
  decide

theorem filter_activeAll (l : List Nat) : l.filter activeAll = l := by
  induction l with
  | nil => rfl
  | cons a l ih => simp [List.filter, activeAll, ih]

theorem batchSlice_ne_nil (tokens : List Nat) (chunk start : Nat)
    (hc : 0 < chunk) (hs : start < tokens.length) :
    batchSlice tokens chunk start ≠ [] := by
  unfold batchSlice
  intro hnil
  rcases List.take_eq_nil_iff.mp hnil with h | h
  · omega
  · have := List.drop_eq_nil_iff.mp h
    omega

/-- Claim C3 (amended): while every token is within trading hours, a
within-cycle iteration (pos at least 1, isSubscribed) unsubscribes the
previous batch and then subscribes the current one; but the iteration
at pos 0 — both the very first and every wrap-around from the last
batch — issues no unsubscribe at all and only subscribes the first
batch, so the final batch of a cycle is never unsubscribed before the
next cycle begins and up to two batches of subscriptions can be in
flight. -/
theorem rotation_unsub_before_sub_amended (tokens : List Nat) (chunk : Nat) (s : RotState)
    (hc : 0 < chunk) (hpos : s.pos * chunk < tokens.length) :
    (s.pos = 0 → (rotStep tokens chunk activeAll s).1 = [Ev.sub (batchSlice tokens chunk 0)]) ∧
    (1 ≤ s.pos → s.isSubscribed = true →
      (rotStep tokens chunk activeAll s).1 =
        [Ev.unsub (batchSlice tokens chunk ((s.pos - 1) * chunk)),
         Ev.sub (batchSlice tokens chunk (s.pos * chunk))]) := by
  have hne : batchSlice tokens chunk (s.pos * chunk) ≠ [] :=
    batchSlice_ne_nil tokens chunk (s.pos * chunk) hc hpos
  have hempty : (batchSlice tokens chunk (s.pos * chunk)).isEmpty = false := by
    simpa [List.isEmpty_iff] using hne
  constructor
  · intro h0
    unfold rotStep
    simp only [filter_activeAll, hempty, h0]
    simp [h0] at hempty ⊢
    simp [hempty]
  · intro h1 hsub
    unfold rotStep
    simp only [filter_activeAll, hempty, hsub]
    simp [show ¬ s.pos = 0 by omega, h1, hempty]

/-- Witness for rotation_unsub_before_sub_amended at universe
[1,2,3,4,5], chunk 2, the within-cycle state pos 1 with isSubscribed. -/
theorem rotation_unsub_before_sub_amended_witness :
    0 < 2 ∧ (RotState.mk 1 true).pos * 2 < ([1, 2, 3, 4, 5] : List Nat).length ∧
    ((RotState.mk 1 true).pos = 0 →
      (rotStep [1, 2, 3, 4, 5] 2 activeAll (RotState.mk 1 true)).1 =
        [Ev.sub (batchSlice [1, 2, 3, 4, 5] 2 0)]) ∧
    (1 ≤ (RotState.mk 1 true).pos → (RotState.mk 1 true).isSubscribed = true →
      (rotStep [1, 2, 3, 4, 5] 2 activeAll (RotState.mk 1 true)).1 =
        [Ev.unsub (batchSlice [1, 2, 3, 4, 5] 2 (((RotState.mk 1 true).pos - 1) * 2)),
         Ev.sub (batchSlice [1, 2, 3, 4, 5] 2 ((RotState.mk 1 true).pos * 2))]) :=
  ⟨by decide, by decide,
    (rotation_unsub_before_sub_amended [1, 2, 3, 4, 5] 2 (RotState.mk 1 true)
      (by decide) (by decide)).1,
    (rotation_unsub_before_sub_amended [1, 2, 3, 4, 5] 2 (RotState.mk 1 true)
      (by decide) (by decide)).2⟩

/-- Claim C4 counterexample: an unparsable rotation interval, or
nonpositive values of either setting, do not stop the engine: Serve
starts with the offending value replaced by 0 (or kept nonpositive),
never returning a fatal configuration error. -/
theorem config_invalid_not_fatal :
    serveStartup none (some 3000) = ConfigOutcome.started 0 3000 ∧
    serveStartup (some (-2)) (some 0) = ConfigOutcome.started (-2) 0 ∧
    serveStartup none (some 3000) ≠ ConfigOutcome.fatalError := by
  decide

/-- Claim C4 (amended): the rotation-interval and instruments-per-batch
values are read before the engine starts, but a parse failure is only
logged: the engine proceeds for every parse outcome, substituting 0 for
an unparsable value, and no positivity validation is performed. -/
theorem config_parse_always_proceeds (pRot pInst : Option Int) :
    serveStartup pRot pInst = ConfigOutcome.started (pRot.getD 0) (pInst.getD 0) := rfl

/-- Claim C10: a cache entry present under both the "exchange:symbol"
key and the bare-symbol key but carrying LastPrice = 0 never satisfies
the success condition, so the wait loop runs through every polling
iteration and reports the timeout failure. -/
theorem wait_zero_lastprice_times_out (m : List (String × Int))
    (symbolKey tradingSymbol : String) (n : Nat)
    (h1 : lookupTick m symbolKey = some 0)
    (h2 : lookupTick m tradingSymbol = some 0) :
    addToBatchAndWait m symbolKey tradingSymbol n = WaitResult.timedOut := by
  have hc1 : tickCheck m symbolKey = false := by
    unfold tickCheck
    rw [h1]
    decide
  have hc2 : tickCheck m tradingSymbol = false := by
    unfold tickCheck
    rw [h2]
    decide
  induction n with
  | zero => rfl
  | succ n ih =>
    unfold addToBatchAndWait
    rw [hc1, hc2]
    simpa using ih

/-- Witness for wait_zero_lastprice_times_out: a cache holding the
symbol under both keys with LastPrice 0, polled for the full 50
iterations. -/
theorem wait_zero_lastprice_times_out_witness :
    lookupTick [(("NSE:RELIANCE"), 0), (("RELIANCE"), 0)] ("NSE:RELIANCE") = some 0 ∧
    lookupTick [(("NSE:RELIANCE"), 0), (("RELIANCE"), 0)] ("RELIANCE") = some 0 ∧
    addToBatchAndWait [(("NSE:RELIANCE"), 0), (("RELIANCE"), 0)] ("NSE:RELIANCE") ("RELIANCE") 50 =
      WaitResult.timedOut :=
  ⟨by decide, by decide,
    wait_zero_lastprice_times_out [(("NSE:RELIANCE"), 0), (("RELIANCE"), 0)]
      ("NSE:RELIANCE") ("RELIANCE") 50 (by decide) (by decide)⟩
